import Mathlib

/-!
Shallow embedding of the CI automation scripts of this repository:

* `.github/workflows/script/collect_pr_status.py` — fetches open pull
  requests via the GitHub CLI, classifies each PR's review status, renders a
  Markdown table and syncs project fields from the linked issue;
* `.github/workflows/script/update_wiki.py` — stages the generated
  `*_PR_status.md` files and commits/pushes them when the staged diff is
  non-empty;
* `python/logging.py` — a JSON log formatter for an AWS Lambda handler.

Python dicts are modelled as association lists kept in insertion order
(update in place, append when the key is new), which matches CPython dict
semantics.  Effectful code (subprocess calls, file writes, GraphQL
mutations) is modelled by explicit result values: the sequence of strings
written to the report file, the list of git commands executed, the list of
field-update mutations issued.
-/

/-- Lookup in an insertion-ordered dictionary (first entry with the key;
dictionaries built by `dictUpdate` have at most one entry per key). -/
def dictLookup {α : Type} (d : List (String × α)) (k : String) : Option α :=
  (d.find? (fun p => p.1 == k)).map (fun p => p.2)

/-- Python dict assignment `d[k] = v`: replace the value in place if the key
is present, otherwise append the new binding at the end. -/
def dictUpdate {α : Type} : List (String × α) → String → α → List (String × α)
  | [], k, v => [(k, v)]
  | p :: rest, k, v => if p.1 = k then (k, v) :: rest else p :: dictUpdate rest k v

/-- `determine_pr_status` from `collect_pr_status.py` (lines 30–59).
`reviewer_states` is the reviewer → latest-state dict, `required_reviewers`
the set of required reviewers from `LOGIN_USERS_B64`.  Branches in source
order: draft, no comment / all pending, changes requested, required
reviewers present and all approved, someone approved and everyone approved,
otherwise in review. -/
def determine_pr_status (reviewer_states : List (String × String))
    (is_draft : Bool) (required_reviewers : List String) : String :=
  if is_draft then "ドラフト"
  else if reviewer_states = [] ∨ ∀ p ∈ reviewer_states, p.2 = "PENDING" then "未レビュー"
  else if ∃ p ∈ reviewer_states, p.2 = "CHANGES_REQUESTED" then "修正依頼"
  else if (∃ u ∈ required_reviewers, u ∈ reviewer_states.map Prod.fst) ∧
      (∀ u ∈ required_reviewers, u ∈ reviewer_states.map Prod.fst →
        (u, "APPROVED") ∈ reviewer_states) then "承認済み"
  else if (∃ p ∈ reviewer_states, p.2 = "APPROVED") ∧
      (∀ p ∈ reviewer_states, p.2 = "APPROVED") then "承認済み"
  else "レビュー中"

/-- `format_reviewer_status`: append the emoji for the review state to the
reviewer's name (unknown states get no emoji, `mapping.get(state, '')`). -/
def format_reviewer_status (reviewer : String) (state : String) : String :=
  let emoji :=
    if state = "APPROVED" then "✅"
    else if state = "CHANGES_REQUESTED" then "❌"
    else if state = "COMMENTED" then "💬"
    else if state = "PENDING" then "⏳"
    else if state = "" then "⏳"
    else ""
  reviewer ++ emoji

/-- Result of `subprocess.run(args, capture_output=True, text=True)`. -/
structure CompletedProcess where
  returncode : Int
  stdout : String
  stderr : String
deriving DecidableEq

/-- The fields `subprocess.CalledProcessError` is constructed with in
`run_gh`: `CalledProcessError(result.returncode, args, output=result.stdout,
stderr=result.stderr)`. -/
structure CalledProcessError where
  returncode : Int
  cmd : List String
  output : String
  stderr : String
deriving DecidableEq

/-- `run_gh` from `collect_pr_status.py` (lines 72–86), as a function of the
subprocess result of the invoked command: on exit code 0 it returns the
captured stdout, otherwise it raises `CalledProcessError` carrying the
captured stdout and stderr. -/
def run_gh (args : List String) (result : CompletedProcess) :
    Except CalledProcessError String :=
  if result.returncode ≠ 0 then
    Except.error ⟨result.returncode, args, result.stdout, result.stderr⟩
  else
    Except.ok result.stdout

/-- One element of the `reviews` array of `gh pr view --json reviews`:
`authorLogin` is `review["author"]["login"]` (`none` covers a missing or
null author object as well as a missing login key), `state` and
`submittedAt` are the corresponding optional keys read with
`r.get("state", "")` and `x.get("submittedAt", "")`. -/
structure Review where
  authorLogin : Option String
  state : Option String
  submittedAt : Option String
deriving DecidableEq

/-- Sort key of `sorted(reviews, key=lambda x: x.get("submittedAt", ""))`. -/
def reviewKey (r : Review) : String :=
  r.submittedAt.getD ""

/-- Lexicographic comparison of character lists by code point, the order
Python uses to compare strings: a strict prefix is smaller, otherwise the
first differing character decides. -/
def charListLt : List Char → List Char → Bool
  | [], [] => false
  | [], _ :: _ => true
  | _ :: _, [] => false
  | a :: as, b :: bs =>
    if a.toNat < b.toNat then true
    else if b.toNat < a.toNat then false
    else charListLt as bs

/-- Python string comparison `a < b` on the sort keys. -/
def submittedAtLt (a b : String) : Bool :=
  charListLt a.data b.data

/-- Insert a review into an already sorted list, before the first element
whose key is not smaller (so the inserted review, which comes earlier in
the original list, precedes later reviews with an equal key: this is the
stable ascending sort Python's `sorted` performs). -/
def insertByKey (r : Review) : List Review → List Review
  | [] => [r]
  | x :: xs =>
    if submittedAtLt (reviewKey x) (reviewKey r) then x :: insertByKey r xs
    else r :: x :: xs

/-- Stable ascending sort by `submittedAt`, modelling
`sorted(reviews, key=lambda x: x.get("submittedAt", ""))`. -/
def sortReviews : List Review → List Review
  | [] => []
  | r :: rs => insertByKey r (sortReviews rs)

/-- One iteration of the review loop in `main` (lines 601–612): skip a
review with no author login or an empty login, keep reviewers that are
currently re-requested in their PENDING state, otherwise record the
review's state for its author (later reviews overwrite earlier ones). -/
def applyReview (requested : List String) (d : List (String × String))
    (r : Review) : List (String × String) :=
  match r.authorLogin with
  | none => d
  | some login =>
    if login = "" then d
    else if login ∈ requested then d
    else dictUpdate d login (r.state.getD "")

/-- `{r: "PENDING" for r in requested}` (line 596). -/
def initReviewerStates (requested : List String) : List (String × String) :=
  requested.foldl (fun d r => dictUpdate d r "PENDING") []

/-- The reviewer → latest-state dict built in `main` (lines 595–612):
requested reviewers start as PENDING, then every review is applied in
ascending `submittedAt` order. -/
def buildReviewerStates (requested : List String) (reviews : List Review) :
    List (String × String) :=
  (sortReviews reviews).foldl (applyReview requested) (initReviewerStates requested)

/-- The state of the last review authored by `a` in the list `rs` (in list
order), if any. -/
def lastReviewState (a : String) (rs : List Review) : Option String :=
  rs.foldl (fun acc r => if r.authorLogin = some a then some (r.state.getD "") else acc) none

/-- Per-PR data fetched from the CLI before the row of the Markdown table is
assembled: the `gh pr list` fields used by the row, the `gh pr view`
reviews / review requests / assignees, and the four project-board field
values as resolved at lines 682–700 (defaulting to "-" on a failed fetch
or a missing field). -/
structure PRData where
  number : Nat
  title : String
  url : String
  isDraft : Bool
  reviews : List Review
  requested : List String
  assignees : List String
  fieldStatus : String
  fieldPriority : String
  fieldTargetDate : String
  fieldSprint : String
deriving DecidableEq

/-- `pr["title"].replace("\n", " ").replace("|", "\\|")` (line 580). -/
def sanitizeTitle (t : String) : String :=
  (t.replace "\n" " ").replace "|" "\\|"

/-- The reviewer cell of one organisation column: the reviewers of
`reviewer_states` whose organisation (`login_user_map.get(reviewer,
"other")`) is `org`, in dict iteration order, each rendered with
`format_reviewer_status`. -/
def orgCell (loginUserMap : List (String × String))
    (states : List (String × String)) (org : String) : List String :=
  (states.filter (fun p => (dictLookup loginUserMap p.1).getD "other" = org)).map
    (fun p => format_reviewer_status p.1 p.2)

/-- The `row_fields` list assembled at lines 703–713 for one PR. -/
def prRowFields (loginUserMap : List (String × String)) (orgOrder : List String)
    (requiredReviewers : List String) (pr : PRData) : List String :=
  let states := buildReviewerStates pr.requested pr.reviews
  let status := determine_pr_status states pr.isDraft requiredReviewers
  let assigneesStr := if pr.assignees = [] then "未割当" else String.intercalate " " pr.assignees
  ["#" ++ toString pr.number,
   "[" ++ sanitizeTitle pr.title ++ "](" ++ pr.url ++ ")",
   status]
  ++ (orgOrder ++ ["other"]).map (fun org =>
      let names := orgCell loginUserMap states org
      if names = [] then "-" else String.intercalate " " names)
  ++ [assigneesStr, pr.fieldStatus, pr.fieldPriority, pr.fieldTargetDate, pr.fieldSprint]

/-- One Markdown table row, `"| " + " | ".join(row_fields) + " |"`. -/
def prRowLine (loginUserMap : List (String × String)) (orgOrder : List String)
    (requiredReviewers : List String) (pr : PRData) : String :=
  "| " ++ String.intercalate " | " (prRowFields loginUserMap orgOrder requiredReviewers pr) ++ " |"

/-- `header_cols` (lines 548–559): fixed columns around one reviewer column
per organisation of `org_order` plus the "other" column. -/
def headerCols (orgOrder : List String) : List String :=
  ["PR", "Title", "状態"]
  ++ (orgOrder ++ ["other"]).map (fun org => org ++ " Reviewers")
  ++ ["Assignees", "Status", "Priority", "Target Date", "Sprint"]

/-- The sequence of strings written to the output file by `main`
(lines 560–564 and 714–716): title, update timestamp, table header,
separator, then one row per PR of the fetched PR list, written by the loop
in list order.  `now` is the formatted `datetime.datetime.now()` value. -/
def reportWrites (repo : String) (now : String)
    (loginUserMap : List (String × String)) (orgOrder : List String)
    (requiredReviewers : List String) (prs : List PRData) : List String :=
  let init :=
    ["# Pull Request Status for " ++ repo ++ "\n\n",
     "Updated: " ++ now ++ "\n\n",
     "| " ++ String.intercalate " | " (headerCols orgOrder) ++ " |\n",
     "| " ++ String.intercalate " | " (List.replicate (headerCols orgOrder).length "---") ++ " |\n"]
  prs.foldl (fun acc pr =>
    acc ++ [prRowLine loginUserMap orgOrder requiredReviewers pr ++ "\n"]) init

/-- The byte content of the generated Markdown file: the concatenation of
the written chunks. -/
def reportContent (repo : String) (now : String)
    (loginUserMap : List (String × String)) (orgOrder : List String)
    (requiredReviewers : List String) (prs : List PRData) : String :=
  String.join (reportWrites repo now loginUserMap orgOrder requiredReviewers prs)

/-- Environment of `update_wiki.main`: the `GITHUB_TOKEN`, `GITHUB_REPOSITORY`
and `GITHUB_ACTOR` environment variables, the sorted result of
`glob.glob("*_PR_status.md")` in the wiki directory, and the exit code of
`git diff --cached --quiet` (non-zero exactly when the staged diff against
HEAD is non-empty). -/
structure WikiEnv where
  token : Option String
  repoEnv : String
  actor : Option String
  statusFiles : List String
  diffReturncode : Int
deriving DecidableEq

/-- `update_wiki.main` (lines 26–57), modelled as the list of git commands
executed via `run` together with the exit code requested through
`sys.exit` (`none` when the script falls through normally).  The
`git diff --cached --quiet` probe is not in the list: it is invoked
without `check=True` and only its return code is consulted. -/
def update_wiki_main (env : WikiEnv) : List (List String) × Option Nat :=
  let pre :=
    if (env.token.getD "") ≠ "" then
      [["git", "remote", "set-url", "origin",
        "https://x-access-token:" ++ env.token.getD "" ++ "@github.com/" ++
          env.repoEnv ++ ".wiki.git"]]
    else []
  if env.statusFiles = [] then (pre, some 1)
  else
    let staged := pre ++ [["git", "add"] ++ env.statusFiles]
    if env.diffReturncode ≠ 0 then
      let actor := env.actor.getD "github-actions"
      (staged ++
        [["git", "config", "user.name", actor],
         ["git", "config", "user.email", actor ++ "@users.noreply.github.com"],
         ["git", "commit", "-m", "Update PR status"],
         ["git", "push"]], none)
    else (staged, none)

/-- JSON values appearing in the `record_dict` built by
`JsonFormatter.format`: strings, or the list of traceback lines stored
under `exc_traceback`. -/
inductive JVal where
  | str (s : String)
  | arr (lines : List String)
deriving DecidableEq

/-- The parts of a Python `logging.LogRecord` read by
`JsonFormatter.format`: `record.name`, `record.levelname`,
`record.getMessage()`, the formatted traceback lines when `record.exc_info`
is set, and the value of the `data` extra attribute when present. -/
structure LogRecord where
  name : String
  levelname : String
  message : String
  excTraceback : Option (List String)
  dataExtra : Option String
deriving DecidableEq

/-- Python truthiness of the module-global `aws_request_id` (`None` when
the module is first loaded, a string once `lambda_handler` has stored
`context.aws_request_id`): falsy when `None` or empty. -/
def truthyStr : Option String → Bool
  | none => false
  | some s => s ≠ ""

/-- `JsonFormatter.format` from `python/logging.py` (lines 21–48), as the
ordered key/value dictionary `record_dict` that is passed to `json.dumps`:
timestamp, name, level and message always; `aws_request_id` only when the
global `aws_request_id` is truthy; `exc_traceback` when exception info is
present; the `data` extra when set. -/
def JsonFormatter.format (awsRequestId : Option String) (timestamp : String)
    (record : LogRecord) : List (String × JVal) :=
  let d : List (String × JVal) :=
    [("timestamp", JVal.str timestamp),
     ("name", JVal.str record.name),
     ("level", JVal.str record.levelname),
     ("message", JVal.str record.message)]
  let d :=
    if truthyStr awsRequestId then
      d ++ [("aws_request_id", JVal.str (awsRequestId.getD ""))]
    else d
  let d :=
    match record.excTraceback with
    | some tb => d ++ [("exc_traceback", JVal.arr tb)]
    | none => d
  match record.dataExtra with
  | some v => d ++ [("data", JVal.str v)]
  | none => d

/-- A project field value as produced by the `or` chain in
`extract_field_value_map`: either a string (single-select name, date,
iteration title or text) or the numeric `number` value. -/
inductive FVal where
  | s (v : String)
  | n (v : Int)
deriving DecidableEq

/-- Python truthiness of an optional field value: `None`, the empty string
and the number 0 are falsy. -/
def fvTruthy : Option FVal → Bool
  | none => false
  | some (FVal.s v) => v ≠ ""
  | some (FVal.n v) => v ≠ 0

/-- The Python `or` of two optional field values: the first when truthy,
otherwise the second (even if the second is falsy or `None`). -/
def pyOr (a b : Option FVal) : Option FVal :=
  if fvTruthy a then a else b

/-- One node of `fieldValues.nodes` as read by `extract_field_value_map`:
the field name (`fv.get("field", {}).get("name")`) and the candidate value
keys of the `or` chain. -/
structure FieldValueNode where
  fieldName : Option String
  name : Option String
  date : Option String
  title : Option String
  text : Option String
  number : Option Int
deriving DecidableEq

/-- `value = fv.get("name") or fv.get("date") or fv.get("title") or
fv.get("text") or fv.get("number")`: the first truthy candidate, else the
`number` entry unchanged (so a present `number` 0 survives the chain and
passes the later `is not None` test). -/
def fvValue (fv : FieldValueNode) : Option FVal :=
  pyOr (fv.name.map FVal.s)
    (pyOr (fv.date.map FVal.s)
      (pyOr (fv.title.map FVal.s)
        (pyOr (fv.text.map FVal.s) (fv.number.map FVal.n))))

/-- `extract_field_value_map` (lines 335–352): walk the field-value nodes in
order, skip nodes without a truthy field name, and store each non-`None`
value under its field name (later nodes overwrite earlier ones). -/
def extract_field_value_map (nodes : List FieldValueNode) : List (String × FVal) :=
  nodes.foldl (fun result fv =>
    match fv.fieldName with
    | none => result
    | some nm =>
      if nm = "" then result
      else
        match fvValue fv with
        | some v => dictUpdate result nm v
        | none => result) []

/-- A field definition from `get_project_field_catalog`: the field id, its
data type, and the name → id maps for single-select options and iteration
titles (empty for other types, mirroring `fmeta.get("options", {})` and
`fmeta.get("iterations", {})`). -/
structure FieldMeta where
  fieldId : String
  type : String
  options : List (String × String)
  iterations : List (String × String)
deriving DecidableEq

/-- A ProjectV2 item as assembled by `get_project_item_map`: the item id,
its project id and its field-value nodes. -/
structure ProjectItem where
  id : String
  projectId : String
  fieldValues : List FieldValueNode
deriving DecidableEq

/-- A `updateProjectV2ItemFieldValue` mutation issued by
`update_single_select`, `update_date` or `update_iteration`. -/
inductive Mutation where
  | singleSelect (projectId itemId fieldId optionId : String)
  | date (projectId itemId fieldId : String) (value : FVal)
  | iteration (projectId itemId fieldId iterationId : String)
deriving DecidableEq

/-- The project id a mutation is issued against. -/
def Mutation.projectIdOf : Mutation → String
  | Mutation.singleSelect p _ _ _ => p
  | Mutation.date p _ _ _ => p
  | Mutation.iteration p _ _ _ => p

/-- The item id a mutation is issued against. -/
def Mutation.itemIdOf : Mutation → String
  | Mutation.singleSelect _ i _ _ => i
  | Mutation.date _ i _ _ => i
  | Mutation.iteration _ i _ _ => i

/-- The field id a mutation updates. -/
def Mutation.fieldIdOf : Mutation → String
  | Mutation.singleSelect _ _ f _ => f
  | Mutation.date _ _ f _ => f
  | Mutation.iteration _ _ f _ => f

/-- The body of the `for fname in want` loop of `sync_if_empty_same_project`
(lines 416–432): when the PR value is missing or the empty string and the
issue value is truthy, look the field up in the catalog and emit the
mutation appropriate for its type (single-select and iteration only when
the option/iteration id resolves to a truthy id). -/
def syncStep (prItem : ProjectItem) (prMap issueMap : List (String × FVal))
    (catalog : List (String × FieldMeta)) (acc : List Mutation)
    (fname : String) : List Mutation :=
  let prV := dictLookup prMap fname
  let issueV := dictLookup issueMap fname
  if (prV = none ∨ prV = some (FVal.s "")) ∧ fvTruthy issueV then
    match dictLookup catalog fname with
    | none => acc
    | some fmeta =>
      if fmeta.type = "SINGLE_SELECT" then
        let optId :=
          match issueV with
          | some (FVal.s sv) => dictLookup fmeta.options sv
          | _ => none
        if (optId.getD "") ≠ "" then
          acc ++ [Mutation.singleSelect prItem.projectId prItem.id fmeta.fieldId (optId.getD "")]
        else acc
      else if fmeta.type = "DATE" then
        acc ++ [Mutation.date prItem.projectId prItem.id fmeta.fieldId (issueV.getD (FVal.s ""))]
      else if fmeta.type = "ITERATION" then
        let itId :=
          match issueV with
          | some (FVal.s sv) => dictLookup fmeta.iterations sv
          | _ => none
        if (itId.getD "") ≠ "" then
          acc ++ [Mutation.iteration prItem.projectId prItem.id fmeta.fieldId (itId.getD "")]
        else acc
      else acc
  else acc

/-- `sync_if_empty_same_project` (lines 411–432), as the list of mutations
it issues for the fields Priority, Target Date and Sprint. -/
def sync_if_empty_same_project (prItem issueItem : ProjectItem)
    (catalog : List (String × FieldMeta)) : List Mutation :=
  let want := ["Priority", "Target Date", "Sprint"]
  let prMap := extract_field_value_map prItem.fieldValues
  let issueMap := extract_field_value_map issueItem.fieldValues
  want.foldl (syncStep prItem prMap issueMap catalog) []

/-- Lookup after a dict assignment: the assigned key reads back the new
value, every other key is unchanged. -/
theorem dictLookup_dictUpdate {α : Type} (d : List (String × α)) (k a : String) (v : α) :
    dictLookup (dictUpdate d k v) a = if a = k then some v else dictLookup d a := by
  induction d with
  | nil =>
    by_cases h : a = k
    · simp [dictUpdate, dictLookup, List.find?, h]
    · have hka : (k == a) = false := beq_eq_false_iff_ne.mpr (fun hh => h hh.symm)
      simp [dictUpdate, dictLookup, List.find?, h, hka]
  | cons p rest ih =>
    by_cases hp : p.1 = k
    · by_cases h : a = k
      · simp [dictUpdate, dictLookup, List.find?, hp, h]
      · have hka : (k == a) = false := beq_eq_false_iff_ne.mpr (fun hh => h hh.symm)
        have hpa : (p.1 == a) = false := by
          rw [hp]; exact hka
        simp [dictUpdate, dictLookup, List.find?, hp, h, hka, hpa]
    · by_cases hpa : p.1 = a
      · have hak : ¬ a = k := fun hak => hp (hpa.trans hak)
        simp [dictUpdate, dictLookup, List.find?, hp, hpa, hak]
      · have hb : (p.1 == a) = false := beq_eq_false_iff_ne.mpr hpa
        simp only [dictUpdate, if_neg hp]
        simp only [dictLookup, List.find?] at ih ⊢
        simp [hb, ih]

/-- Claim C1 (amended).  With the draft flag false, a non-empty reviewer
map, not every state PENDING and no CHANGES_REQUESTED state,
`determine_pr_status` returns 承認済み exactly when either some required
reviewer occurs in the map and every required reviewer occurring in the map
has state APPROVED, or every reviewer state is APPROVED. -/
theorem determine_pr_status_approved_iff (rs : List (String × String)) (req : List String)
    (hne : rs ≠ []) (hnp : ¬ ∀ p ∈ rs, p.2 = "PENDING")
    (hncr : ¬ ∃ p ∈ rs, p.2 = "CHANGES_REQUESTED") :
    determine_pr_status rs false req = "承認済み" ↔
      ((∃ u ∈ req, u ∈ rs.map Prod.fst) ∧
        ∀ u ∈ req, u ∈ rs.map Prod.fst → (u, "APPROVED") ∈ rs) ∨
      (∀ p ∈ rs, p.2 = "APPROVED") := by
  unfold determine_pr_status
  rw [if_neg (by simp), if_neg (not_or.mpr ⟨hne, hnp⟩), if_neg hncr]
  by_cases h3 : (∃ u ∈ req, u ∈ rs.map Prod.fst) ∧
      ∀ u ∈ req, u ∈ rs.map Prod.fst → (u, "APPROVED") ∈ rs
  · rw [if_pos h3]
    exact iff_of_true rfl (Or.inl h3)
  · rw [if_neg h3]
    by_cases h4 : (∃ p ∈ rs, p.2 = "APPROVED") ∧ ∀ p ∈ rs, p.2 = "APPROVED"
    · rw [if_pos h4]
      exact iff_of_true rfl (Or.inr h4.2)
    · rw [if_neg h4]
      refine ⟨fun h => absurd h (by decide), fun h => ?_⟩
      rcases h with h | h
      · exact absurd h h3
      · cases rs with
        | nil => exact absurd rfl hne
        | cons q qs =>
          exact absurd ⟨⟨q, List.mem_cons_self q qs, h q (List.mem_cons_self q qs)⟩, h⟩ h4

/-- Witness for `determine_pr_status_approved_iff` at a concrete input. -/
theorem determine_pr_status_approved_iff_witness :
    determine_pr_status [("alice", "APPROVED")] false ["alice"] = "承認済み" :=
  (determine_pr_status_approved_iff [("alice", "APPROVED")] ["alice"]
    (by decide) (by decide) (by decide)).mpr (Or.inl (by decide))

/-- Counterexample to claim C1 as stated: with required reviewers alice and
bob, where bob never appears in the reviewer map, the function returns
承認済み although neither every required reviewer approved (bob did not)
nor every reviewer approved (carol only commented). -/
theorem determine_pr_status_approved_counterexample :
    ([("alice", "APPROVED"), ("carol", "COMMENTED")] ≠ ([] : List (String × String))) ∧
    (¬ ∀ p ∈ [("alice", "APPROVED"), ("carol", "COMMENTED")], p.2 = "PENDING") ∧
    (¬ ∃ p ∈ [("alice", "APPROVED"), ("carol", "COMMENTED")], p.2 = "CHANGES_REQUESTED") ∧
    determine_pr_status [("alice", "APPROVED"), ("carol", "COMMENTED")] false
      ["alice", "bob"] = "承認済み" ∧
    (¬ ∀ u ∈ ["alice", "bob"],
        (u, "APPROVED") ∈ [("alice", "APPROVED"), ("carol", "COMMENTED")]) ∧
    (¬ ∀ p ∈ [("alice", "APPROVED"), ("carol", "COMMENTED")], p.2 = "APPROVED") := by
  decide

/-- Claim C3 (amended).  With the draft flag false, no CHANGES_REQUESTED
state and neither approval branch applying, `determine_pr_status` returns
レビュー中 exactly when some reviewer state differs from PENDING, and
未レビュー exactly when the map is empty or every state is PENDING. -/
theorem determine_pr_status_inreview_unreviewed (rs : List (String × String)) (req : List String)
    (hncr : ¬ ∃ p ∈ rs, p.2 = "CHANGES_REQUESTED")
    (hnb3 : ¬ ((∃ u ∈ req, u ∈ rs.map Prod.fst) ∧
        ∀ u ∈ req, u ∈ rs.map Prod.fst → (u, "APPROVED") ∈ rs))
    (hnb4 : ¬ ((∃ p ∈ rs, p.2 = "APPROVED") ∧ ∀ p ∈ rs, p.2 = "APPROVED")) :
    (determine_pr_status rs false req = "レビュー中" ↔ ∃ p ∈ rs, p.2 ≠ "PENDING") ∧
    (determine_pr_status rs false req = "未レビュー" ↔
      (rs = [] ∨ ∀ p ∈ rs, p.2 = "PENDING")) := by
  unfold determine_pr_status
  rw [if_neg (by simp)]
  by_cases h2 : rs = [] ∨ ∀ p ∈ rs, p.2 = "PENDING"
  · rw [if_pos h2]
    refine ⟨⟨fun h => absurd h (by decide), fun h => ?_⟩, iff_of_true rfl h2⟩
    rcases h with ⟨p, hp, hps⟩
    rcases h2 with h2 | h2
    · subst h2; exact absurd hp (List.not_mem_nil p)
    · exact absurd (h2 p hp) hps
  · rw [if_neg h2, if_neg hncr, if_neg hnb3, if_neg hnb4]
    have hx : ∃ p ∈ rs, p.2 ≠ "PENDING" := by
      push_neg at h2
      exact h2.2
    exact ⟨iff_of_true rfl hx, ⟨fun h => absurd h (by decide), fun h => absurd h h2⟩⟩

/-- Witness for `determine_pr_status_inreview_unreviewed` at a concrete
input. -/
theorem determine_pr_status_inreview_unreviewed_witness :
    determine_pr_status [("alice", "COMMENTED")] false [] = "レビュー中" :=
  ((determine_pr_status_inreview_unreviewed [("alice", "COMMENTED")] []
    (by decide) (by decide) (by decide)).1).mpr (by decide)

/-- Counterexample to claim C3 as stated: with one reviewer whose state is
PENDING (a pending review request) the map is non-empty, the
changes-requested and approval rules do not apply, yet the function returns
未レビュー rather than レビュー中. -/
theorem determine_pr_status_all_pending_counterexample :
    (¬ ∃ p ∈ [("alice", "PENDING")], p.2 = "CHANGES_REQUESTED") ∧
    (¬ ((∃ u ∈ ([] : List String), u ∈ [("alice", "PENDING")].map Prod.fst) ∧
        ∀ u ∈ ([] : List String), u ∈ [("alice", "PENDING")].map Prod.fst →
          (u, "APPROVED") ∈ [("alice", "PENDING")])) ∧
    (¬ ((∃ p ∈ [("alice", "PENDING")], p.2 = "APPROVED") ∧
        ∀ p ∈ [("alice", "PENDING")], p.2 = "APPROVED")) ∧
    ([("alice", "PENDING")] ≠ ([] : List (String × String))) ∧
    determine_pr_status [("alice", "PENDING")] false [] = "未レビュー" ∧
    determine_pr_status [("alice", "PENDING")] false [] ≠ "レビュー中" := by
  decide

/-- Lookup in the dict comprehension seeding the reviewer map: every
requested reviewer reads back PENDING, every other key falls through. -/
theorem dictLookup_pendingFold (req : List String) (a : String) :
    ∀ d, dictLookup (req.foldl (fun d r => dictUpdate d r "PENDING") d) a =
      if a ∈ req then some "PENDING" else dictLookup d a := by
  induction req with
  | nil => intro d; simp
  | cons r rest ih =>
    intro d
    rw [List.foldl_cons, ih, dictLookup_dictUpdate]
    by_cases hr : a = r
    · simp [hr]
    · by_cases hm : a ∈ rest <;> simp [hr, hm]

/-- Lookup in `initReviewerStates`. -/
theorem initReviewerStates_lookup (req : List String) (a : String) :
    dictLookup (initReviewerStates req) a = if a ∈ req then some "PENDING" else none := by
  rw [initReviewerStates, dictLookup_pendingFold]
  rfl

/-- The review loop never touches the entry of a requested reviewer. -/
theorem lookup_foldl_applyReview_requested (requested : List String) (a : String)
    (ha : a ∈ requested) :
    ∀ (l : List Review) (d : List (String × String)),
      dictLookup (l.foldl (applyReview requested) d) a = dictLookup d a := by
  intro l
  induction l with
  | nil => intro d; rfl
  | cons r rest ih =>
    intro d
    rw [List.foldl_cons, ih]
    rcases hr : r.authorLogin with _ | login
    · simp [applyReview, hr]
    · by_cases h0 : login = ""
      · simp [applyReview, hr, h0]
      · by_cases hq : login ∈ requested
        · simp [applyReview, hr, h0, hq]
        · have hla : ¬ a = login := fun he => hq (he ▸ ha)
          simp [applyReview, hr, h0, hq, dictLookup_dictUpdate, hla]

/-- Claim C9.  A reviewer listed in the PR's current `reviewRequests` is
mapped to PENDING by the reviewer-state construction, regardless of any
reviews that reviewer submitted. -/
theorem buildReviewerStates_requested_pending (requested : List String)
    (reviews : List Review) (a : String) (ha : a ∈ requested) :
    dictLookup (buildReviewerStates requested reviews) a = some "PENDING" := by
  rw [buildReviewerStates, lookup_foldl_applyReview_requested requested a ha,
    initReviewerStates_lookup, if_pos ha]

/-- Witness for `buildReviewerStates_requested_pending`: bob already
approved but is re-requested, so his entry is PENDING. -/
theorem buildReviewerStates_requested_pending_witness :
    dictLookup (buildReviewerStates ["bob"]
      [⟨some "bob", some "APPROVED", some "2024-05-01T10:00:00Z"⟩]) "bob" = some "PENDING" :=
  buildReviewerStates_requested_pending ["bob"] _ "bob" (by decide)

/-- The review loop computes the last written state for a reviewer who is
not re-requested: folding `applyReview` performs exactly the last-write-wins
accumulation of the review states of that author. -/
theorem lookup_foldl_applyReview (requested : List String) (a : String)
    (ha : a ∉ requested) (hne : a ≠ "") :
    ∀ (l : List Review) (d : List (String × String)),
      dictLookup (l.foldl (applyReview requested) d) a =
        l.foldl (fun acc r =>
          if r.authorLogin = some a then some (r.state.getD "") else acc)
          (dictLookup d a) := by
  intro l
  induction l with
  | nil => intro d; rfl
  | cons r rest ih =>
    intro d
    rw [List.foldl_cons, List.foldl_cons, ih]
    congr 1
    rcases hr : r.authorLogin with _ | login
    · simp [applyReview, hr]
    · by_cases h0 : login = ""
      · have hcond : ¬ ((some login : Option String) = some a) := by
          intro he
          exact hne ((Option.some.inj he).symm.trans h0)
        rw [if_neg hcond]
        simp [applyReview, hr, h0]
      · by_cases hq : login ∈ requested
        · have hcond : ¬ ((some login : Option String) = some a) := by
            intro he
            have hla : login = a := Option.some.inj he
            exact ha (hla ▸ hq)
          rw [if_neg hcond]
          simp [applyReview, hr, h0, hq]
        · simp only [applyReview, hr, if_neg h0, if_neg hq]
          rw [dictLookup_dictUpdate]
          by_cases hla : a = login
          · simp [hla]
          · have hcond : ¬ (login = a) := fun he => hla he.symm
            simp [hla, hcond]

/-- Claim C4 (amended).  For a review author who is not in the current
`reviewRequests` and has a non-empty login, the reviewer-state map holds the
state of that author's last review in the stable ascending `submittedAt`
order — the latest state per author wins. -/
theorem buildReviewerStates_latest_state (requested : List String)
    (reviews : List Review) (a : String) (st : String)
    (ha : a ∉ requested) (hne : a ≠ "")
    (hlast : lastReviewState a (sortReviews reviews) = some st) :
    dictLookup (buildReviewerStates requested reviews) a = some st := by
  rw [buildReviewerStates, lookup_foldl_applyReview requested a ha hne,
    initReviewerStates_lookup, if_neg ha]
  exact hlast

/-- Witness for `buildReviewerStates_latest_state`: alice commented first
and approved later; her entry holds the later APPROVED state. -/
theorem buildReviewerStates_latest_state_witness :
    dictLookup (buildReviewerStates []
      [⟨some "alice", some "COMMENTED", some "2024-05-01T10:00:00Z"⟩,
       ⟨some "alice", some "APPROVED", some "2024-05-02T10:00:00Z"⟩]) "alice" =
      some "APPROVED" :=
  buildReviewerStates_latest_state [] _ "alice" "APPROVED" (by decide) (by decide) (by decide)

/-- Counterexample to claim C4 as stated: alice authored an APPROVED review,
but because she is listed in the current `reviewRequests` her entry is
PENDING, not the state of her latest review. -/
theorem buildReviewerStates_requested_overrides_review :
    dictLookup (buildReviewerStates ["alice"]
      [⟨some "alice", some "APPROVED", some "2024-05-01T10:00:00Z"⟩]) "alice" =
      some "PENDING" ∧
    lastReviewState "alice" (sortReviews
      [⟨some "alice", some "APPROVED", some "2024-05-01T10:00:00Z"⟩]) = some "APPROVED" ∧
    ("PENDING" : String) ≠ "APPROVED" := by
  decide

/-- Claim C7.  `run_gh` returns the captured stdout exactly when the
command exits with code 0, and raises `CalledProcessError` carrying the
captured stdout and stderr exactly when the exit code is non-zero. -/
theorem run_gh_spec (args : List String) (r : CompletedProcess) :
    (∀ s, run_gh args r = Except.ok s ↔ (r.returncode = 0 ∧ s = r.stdout)) ∧
    (∀ e, run_gh args r = Except.error e ↔
      (r.returncode ≠ 0 ∧ e = ⟨r.returncode, args, r.stdout, r.stderr⟩)) := by
  unfold run_gh
  by_cases h : r.returncode = 0
  · rw [if_neg (not_not_intro h)]
    refine ⟨fun s => ⟨fun he => ⟨h, (Except.ok.inj he).symm⟩, fun hs => by rw [hs.2]⟩,
      fun e => ⟨fun he => Except.noConfusion he, fun hs => absurd h hs.1⟩⟩
  · rw [if_pos h]
    refine ⟨fun s => ⟨fun he => Except.noConfusion he, fun hs => absurd hs.1 h⟩,
      fun e => ⟨fun he => ⟨h, (Except.error.inj he).symm⟩, fun hs => by rw [hs.2]⟩⟩

/-- Witness for `run_gh_spec` at a concrete successful invocation. -/
theorem run_gh_spec_witness :
    run_gh ["gh", "pr", "list"] ⟨0, "out", ""⟩ = Except.ok "out" :=
  ((run_gh_spec ["gh", "pr", "list"] ⟨0, "out", ""⟩).1 "out").mpr ⟨rfl, rfl⟩

/-- Claim C5.  When a `*_PR_status.md` file exists, `update_wiki.main` runs
`git commit` and `git push` exactly when `git diff --cached --quiet`
returned non-zero (a non-empty staged diff), and exits normally; when no
such file exists it exits with code 1 and runs neither commit nor push. -/
theorem update_wiki_commit_iff (env : WikiEnv) :
    (env.statusFiles ≠ [] →
      ((["git", "commit", "-m", "Update PR status"] ∈ (update_wiki_main env).1 ↔
          env.diffReturncode ≠ 0) ∧
        (["git", "push"] ∈ (update_wiki_main env).1 ↔ env.diffReturncode ≠ 0) ∧
        (update_wiki_main env).2 = none)) ∧
    (env.statusFiles = [] →
      ((update_wiki_main env).2 = some 1 ∧
        ["git", "commit", "-m", "Update PR status"] ∉ (update_wiki_main env).1 ∧
        ["git", "push"] ∉ (update_wiki_main env).1)) := by
  constructor
  · intro hf
    by_cases hd : env.diffReturncode ≠ 0 <;>
      by_cases ht : (env.token.getD "") ≠ "" <;>
        simp [update_wiki_main, hf, hd, ht]
  · intro hf
    by_cases ht : (env.token.getD "") ≠ "" <;>
      simp [update_wiki_main, hf, ht]

/-- Witness for `update_wiki_commit_iff`: with one status file and a
non-zero diff exit code the commit command is run. -/
theorem update_wiki_commit_iff_witness :
    ["git", "commit", "-m", "Update PR status"] ∈
      (update_wiki_main ⟨some "tok", "owner/repo", some "me",
        ["repo_PR_status.md"], 1⟩).1 :=
  (((update_wiki_commit_iff ⟨some "tok", "owner/repo", some "me",
    ["repo_PR_status.md"], 1⟩).1 (by decide)).1).mpr (by decide)

/-- Claim C8 (amended).  The `record_dict` built by `JsonFormatter.format`
contains the `aws_request_id` key exactly when the module-global
`aws_request_id` is truthy (set and non-empty); records formatted while it
is unset omit the key. -/
theorem jsonFormatter_aws_request_id_iff (awsRequestId : Option String)
    (timestamp : String) (record : LogRecord) :
    ("aws_request_id" ∈
        (JsonFormatter.format awsRequestId timestamp record).map Prod.fst) ↔
      truthyStr awsRequestId = true := by
  unfold JsonFormatter.format
  rcases hx : record.excTraceback with _ | tb <;>
    rcases hdd : record.dataExtra with _ | dv <;>
      by_cases ht : truthyStr awsRequestId = true <;>
        simp [hx, hdd, ht]

/-- Counterexample to claim C8 as stated: the record logged by
`init_logging` at import time, before `lambda_handler` stores a request id
(the global is still `None`), is formatted without the `aws_request_id`
key. -/
theorem jsonFormatter_missing_aws_request_id :
    ¬ ("aws_request_id" ∈
      (JsonFormatter.format none "2024-05-01 10:00:00"
        ⟨"python.logging", "DEBUG", "Logging is initialized", none, none⟩).map Prod.fst) := by
  decide

/-- Folding "append one element per input" over a list appends one mapped
element per input to the initial accumulator. -/
theorem foldl_push_eq_append_map {α β : Type} (l : List α) (f : α → β) :
    ∀ init : List β, l.foldl (fun acc x => acc ++ [f x]) init = init ++ l.map f := by
  induction l with
  | nil => intro init; simp
  | cons x xs ih =>
    intro init
    rw [List.foldl_cons, ih, List.map_cons]
    simp

/-- The write sequence of the report is the four header chunks followed by
exactly one row chunk per PR. -/
theorem reportWrites_eq (repo now : String) (lm : List (String × String))
    (oo rr : List String) (prs : List PRData) :
    reportWrites repo now lm oo rr prs =
      ["# Pull Request Status for " ++ repo ++ "\n\n",
       "Updated: " ++ now ++ "\n\n",
       "| " ++ String.intercalate " | " (headerCols oo) ++ " |\n",
       "| " ++ String.intercalate " | " (List.replicate (headerCols oo).length "---") ++ " |\n"]
      ++ prs.map (fun pr => prRowLine lm oo rr pr ++ "\n") := by
  rw [reportWrites]
  exact foldl_push_eq_append_map prs _ _

/-- Claim C6.  The chunks written to the report file after the fixed
four-chunk header are exactly one table row per fetched open PR, so the
number of table rows equals the number of open PRs. -/
theorem report_one_row_per_pr (repo now : String) (lm : List (String × String))
    (oo rr : List String) (prs : List PRData) :
    (reportWrites repo now lm oo rr prs).drop 4 =
      prs.map (fun pr => prRowLine lm oo rr pr ++ "\n") ∧
    ((reportWrites repo now lm oo rr prs).drop 4).length = prs.length := by
  rw [reportWrites_eq]
  exact ⟨rfl, by simp⟩

/-- Folding string append from an arbitrary seed factors the seed out. -/
theorem stringFoldlAppend (l : List String) :
    ∀ s : String, l.foldl (fun r t => r ++ t) s = s ++ l.foldl (fun r t => r ++ t) "" := by
  induction l with
  | nil => intro s; simp
  | cons x xs ih =>
    intro s
    rw [List.foldl_cons, List.foldl_cons, ih (s ++ x), ih ("" ++ x),
      String.empty_append, String.append_assoc]

/-- `String.join` peels its head chunk off as an append. -/
theorem stringJoin_cons (a : String) (l : List String) :
    String.join (a :: l) = a ++ String.join l := by
  rw [String.join, String.join, List.foldl_cons]
  rw [stringFoldlAppend l ("" ++ a), String.empty_append]

/-- Claim C2 (amended).  For fixed upstream data (repository name,
organisation configuration and fetched PR data), two runs of the report
generator produce byte-identical files exactly when their formatted
`Updated:` timestamps coincide; a run at a different clock reading changes
the file, so the Publisher sees a non-empty diff and commits. -/
theorem reportContent_eq_iff_timestamp_eq (repo t1 t2 : String)
    (lm : List (String × String)) (oo rr : List String) (prs : List PRData) :
    reportContent repo t1 lm oo rr prs = reportContent repo t2 lm oo rr prs ↔
      t1 = t2 := by
  constructor
  · intro h
    rw [reportContent, reportContent, reportWrites_eq, reportWrites_eq] at h
    simp only [List.cons_append, List.nil_append, stringJoin_cons] at h
    have hd := congrArg String.data h
    simp only [String.data_append, List.append_assoc] at hd
    have h1 := List.append_cancel_left hd
    have h2 := List.append_cancel_left h1
    have h3 := List.append_cancel_left h2
    have h4 := List.append_cancel_left h3
    exact String.ext (List.append_cancel_right h4)
  · intro h
    rw [h]

/-- Counterexample to claim C2 as stated: the generated file embeds
`datetime.datetime.now()` in its `Updated:` line, so two runs with
identical upstream data but clock readings one second apart produce
different bytes, and the Publisher, seeing a non-empty staged diff,
commits. -/
theorem reportContent_differs_on_timestamp :
    reportContent "r-toku/sandbox-repo" "2024-05-01 10:00:00" [] [] [] [] ≠
      reportContent "r-toku/sandbox-repo" "2024-05-01 10:00:01" [] [] [] [] ∧
    ["git", "commit", "-m", "Update PR status"] ∈
      (update_wiki_main ⟨none, "r-toku/sandbox-repo", none,
        ["r-toku_sandbox-repo_PR_status.md"], 1⟩).1 := by
  exact ⟨by decide, by decide⟩

/-- Membership in an accumulator extended by one element. -/
theorem mem_append_singleton {α : Type} {m x : α} {acc : List α}
    (hm : m ∈ acc ++ [x]) : m ∈ acc ∨ m = x := by
  rcases List.mem_append.mp hm with h | h
  · exact Or.inl h
  · exact Or.inr (List.mem_singleton.mp h)

/-- A mutation produced by one step of the sync loop either was already in
the accumulator or targets the PR item and the catalog field id of the
processed field, whose PR value is missing or empty while the issue value
is truthy. -/
theorem mem_syncStep (prItem : ProjectItem) (prMap issueMap : List (String × FVal))
    (catalog : List (String × FieldMeta)) (acc : List Mutation) (fname : String)
    (m : Mutation) (hm : m ∈ syncStep prItem prMap issueMap catalog acc fname) :
    m ∈ acc ∨
      ((dictLookup prMap fname = none ∨ dictLookup prMap fname = some (FVal.s "")) ∧
        fvTruthy (dictLookup issueMap fname) = true ∧
        (∃ fmeta, dictLookup catalog fname = some fmeta ∧
          Mutation.fieldIdOf m = fmeta.fieldId) ∧
        Mutation.projectIdOf m = prItem.projectId ∧ Mutation.itemIdOf m = prItem.id) := by
  simp only [syncStep] at hm
  split at hm
  case isTrue hc =>
    split at hm
    case h_1 => exact Or.inl hm
    case h_2 fmeta hcat =>
      split_ifs at hm
      · rcases mem_append_singleton hm with h | h
        · exact Or.inl h
        · subst h; exact Or.inr ⟨hc.1, hc.2, ⟨fmeta, hcat, rfl⟩, rfl, rfl⟩
      · exact Or.inl hm
      · rcases mem_append_singleton hm with h | h
        · exact Or.inl h
        · subst h; exact Or.inr ⟨hc.1, hc.2, ⟨fmeta, hcat, rfl⟩, rfl, rfl⟩
      · rcases mem_append_singleton hm with h | h
        · exact Or.inl h
        · subst h; exact Or.inr ⟨hc.1, hc.2, ⟨fmeta, hcat, rfl⟩, rfl, rfl⟩
      · exact Or.inl hm
      · exact Or.inl hm
  case isFalse hc => exact Or.inl hm

/-- Folding the sync step over a field list only ever adds mutations that
satisfy the per-field condition of `mem_syncStep`. -/
theorem mem_syncFold (prItem : ProjectItem) (prMap issueMap : List (String × FVal))
    (catalog : List (String × FieldMeta)) :
    ∀ (want : List String) (acc : List Mutation) (m : Mutation),
      m ∈ want.foldl (syncStep prItem prMap issueMap catalog) acc →
      m ∈ acc ∨ ∃ fname ∈ want,
        ((dictLookup prMap fname = none ∨ dictLookup prMap fname = some (FVal.s "")) ∧
          fvTruthy (dictLookup issueMap fname) = true ∧
          (∃ fmeta, dictLookup catalog fname = some fmeta ∧
            Mutation.fieldIdOf m = fmeta.fieldId) ∧
          Mutation.projectIdOf m = prItem.projectId ∧ Mutation.itemIdOf m = prItem.id) := by
  intro want
  induction want with
  | nil => intro acc m hm; exact Or.inl hm
  | cons f fs ih =>
    intro acc m hm
    rw [List.foldl_cons] at hm
    rcases ih _ m hm with h | ⟨g, hg, hp⟩
    · rcases mem_syncStep prItem prMap issueMap catalog acc f m h with h2 | h2
      · exact Or.inl h2
      · exact Or.inr ⟨f, List.mem_cons_self f fs, h2⟩
    · exact Or.inr ⟨g, List.mem_cons_of_mem f hg, hp⟩

/-- Claim C10.  Every mutation issued by `sync_if_empty_same_project` is
for one of the fields Priority, Target Date, Sprint whose PR-side value is
missing or empty while the issue-side value is truthy — the mutation's
field id is the catalog field id of that very field — and it targets the
PR item (its project id and item id): a PR field holding a non-empty value
is never the field a mutation updates, and the issue item is never
mutated. -/
theorem sync_if_empty_only_when_empty (prItem issueItem : ProjectItem)
    (catalog : List (String × FieldMeta)) (m : Mutation)
    (hm : m ∈ sync_if_empty_same_project prItem issueItem catalog) :
    ∃ fname ∈ ["Priority", "Target Date", "Sprint"],
      ((dictLookup (extract_field_value_map prItem.fieldValues) fname = none ∨
        dictLookup (extract_field_value_map prItem.fieldValues) fname = some (FVal.s "")) ∧
        fvTruthy (dictLookup (extract_field_value_map issueItem.fieldValues) fname) = true ∧
        (∃ fmeta, dictLookup catalog fname = some fmeta ∧
          Mutation.fieldIdOf m = fmeta.fieldId) ∧
        Mutation.projectIdOf m = prItem.projectId ∧ Mutation.itemIdOf m = prItem.id) := by
  simp only [sync_if_empty_same_project] at hm
  rcases mem_syncFold prItem (extract_field_value_map prItem.fieldValues)
      (extract_field_value_map issueItem.fieldValues) catalog
      ["Priority", "Target Date", "Sprint"] [] m hm with h | h
  · exact absurd h (List.not_mem_nil m)
  · exact h

/-- Witness for `sync_if_empty_only_when_empty`: the PR item has no
Priority value, the issue item has Priority High, and the emitted
single-select mutation targets the PR item and the Priority field id. -/
theorem sync_if_empty_only_when_empty_witness :
    ∃ fname ∈ ["Priority", "Target Date", "Sprint"],
      ((dictLookup (extract_field_value_map
          (⟨"ITEM_PR", "PROJ", []⟩ : ProjectItem).fieldValues) fname = none ∨
        dictLookup (extract_field_value_map
          (⟨"ITEM_PR", "PROJ", []⟩ : ProjectItem).fieldValues) fname = some (FVal.s "")) ∧
        fvTruthy (dictLookup (extract_field_value_map
          (⟨"ITEM_ISSUE", "PROJ",
            [⟨some "Priority", some "High", none, none, none, none⟩]⟩ :
              ProjectItem).fieldValues) fname) = true ∧
        (∃ fmeta, dictLookup
            [("Priority", (⟨"F1", "SINGLE_SELECT", [("High", "O1")], []⟩ : FieldMeta))]
            fname = some fmeta ∧
          Mutation.fieldIdOf (Mutation.singleSelect "PROJ" "ITEM_PR" "F1" "O1") =
            fmeta.fieldId) ∧
        Mutation.projectIdOf (Mutation.singleSelect "PROJ" "ITEM_PR" "F1" "O1") = "PROJ" ∧
        Mutation.itemIdOf (Mutation.singleSelect "PROJ" "ITEM_PR" "F1" "O1") = "ITEM_PR") :=
  sync_if_empty_only_when_empty ⟨"ITEM_PR", "PROJ", []⟩
    ⟨"ITEM_ISSUE", "PROJ", [⟨some "Priority", some "High", none, none, none, none⟩]⟩
    [("Priority", ⟨"F1", "SINGLE_SELECT", [("High", "O1")], []⟩)]
    (Mutation.singleSelect "PROJ" "ITEM_PR" "F1" "O1") (by decide)
